import Mathlib

set_option maxRecDepth 40000

/-!
Shallow embedding of the wine-shop backend (Express + Mongoose application:
`src/server.js`, `src/unnamed/part_000`, `src/unnamed/part_001`).

The authoritative file for the extended variant (price/variety wines, users,
secrets, login) is `src/unnamed/part_001`; `src/server.js` and
`src/unnamed/part_000` are the baseline variant whose shared routes
(PATCH /wines/:id) are textually identical to the extended one.

Modelling conventions:
* The Mongo collections become Lists in insertion order; `findOne` is
  `List.find?`, `find` with a filter is `List.filter`.
* Document ids are opaque `String`s (Mongo ObjectIds).
* Dates are `Nat` timestamps.
* Fallible store operations are `Except Unit` values supplied by the
  environment where a claim speaks about store failure.
* `req.header('Authorization')` is `Option String` (`none` = header absent);
  every stored user carries a generated `accessToken` string (schema default
  `crypto.randomBytes(128).toString('hex')`), so an absent header value
  equals no stored token.
-/

namespace Webshop

/-- A document of the `Wine` collection (extended schema of
`src/unnamed/part_001`, lines 33-72): `name` required/unique, `description`
required with length in [2,300] and trimmed, `price` optional numeric in
[1,1000], `createdAt` a date defaulted by the schema, `variety` required
string, `country` optional string. -/
structure Wine where
  id : String
  name : String
  description : String
  price : Option Int
  createdAt : Nat
  variety : String
  country : Option String
deriving Repr, DecidableEq

/-- A document of the `User` collection (`src/unnamed/part_001`, lines
229-246): `username` required/unique with length in [2,20], `password`
required with minlength 5 (the stored value, which the register route sets
to a bcrypt hash), `accessToken` defaulted to 128 random bytes hex-encoded. -/
structure User where
  id : String
  username : String
  password : String
  accessToken : String
deriving Repr, DecidableEq

/-- A document of the `Secret` collection (`src/unnamed/part_001`, lines
315-327): optional `message`, defaulted `createdAt`, required `user`
(the owning user's id, stored as a string). -/
structure Secret where
  id : String
  message : Option String
  createdAt : Nat
  user : String
deriving Repr, DecidableEq

/-- The persistence store: the three Mongo collections, each in insertion
order. -/
structure DB where
  wines : List Wine
  users : List User
  secrets : List Secret
deriving Repr, DecidableEq

/-! ### bcrypt model

Modelled from the bcrypt library's documented behaviour (external
dependency, not part of the repository): `hashSync` returns a 60-character
string `"$2b$10$" ++ salt(22 chars) ++ digest(31 chars)` embedding the salt;
`compareSync` re-hashes the plaintext with the embedded salt and compares;
calling `compareSync` with a missing (`undefined`) data argument throws
synchronously. The digest is an executable stand-in keyed on the plaintext
and the salt. -/

/-- 64-character alphabet used to render the modelled digest. -/
def bcryptAlphabet : List Char :=
  ("./ABCDEFGHIJKLMNOPQRSTUVWXYZabcdefghijklmnopqrstuvwxyz0123456789").data

/-- Executable stand-in for the 31-character bcrypt digest body: a rolling
checksum of salt and plaintext rendered over a 64-character alphabet,
always exactly 31 characters long. -/
def bcryptDigest31 (plaintext salt : String) : List Char :=
  let seed : Nat := (salt.data ++ plaintext.data).foldl
    (fun h c => (h * 131 + c.toNat + 7) % (2 ^ 190)) 5381
  (List.range 31).map (fun i => bcryptAlphabet.getD ((seed / 64 ^ i) % 64) '.')

/-- Modelled `bcrypt.hashSync(plaintext, salt)`: the standard modular-crypt
format `$2b$10$` + 22-char salt + 31-char digest (60 chars for a 22-char
salt). -/
def bcryptHashSync (plaintext salt : String) : String :=
  "$2b$10$" ++ salt ++ String.mk (bcryptDigest31 plaintext salt)

/-- The salt embedded in a modelled bcrypt hash (characters 7..28). -/
def saltOfHash (hash : String) : String :=
  String.mk ((hash.data.drop 7).take 22)

/-- Modelled `bcrypt.compareSync(plaintext, hash)`: re-hash with the
embedded salt and compare; throws (`.error`) when the data argument is
absent or not a string, as the library does. -/
def bcryptCompareSync (plaintext : Option String) (hash : String) :
    Except Unit Bool :=
  match plaintext with
  | none => .error ()
  | some p => .ok (bcryptHashSync p (saltOfHash hash) == hash)

/-! ### Authentication gate (`authenticateUser`, part_001 lines 333-356) -/

/-- Body payloads of the JSON responses the secrets routes send. -/
inductive SecretsBody where
  | notAuthorized : SecretsBody
  | caughtError : SecretsBody
  | secretList : List Secret → SecretsBody
deriving Repr, DecidableEq

/-- An HTTP response as the secrets routes build it:
`res.status(s).json({ success, response })`. -/
structure SecretsResponse where
  status : Nat
  success : Bool
  response : SecretsBody
deriving Repr, DecidableEq

/-- `User.findOne({ accessToken: accessToken })` where `accessToken` is the
`Authorization` header value: the first stored user whose `accessToken`
equals the presented header value. An absent header (`none`) equals no
stored token, since every stored user's `accessToken` is a generated hex
string. -/
def findUserByToken (db : DB) (header : Option String) : Option User :=
  db.users.find? (fun u => some u.accessToken == header)

/-- Outcome of the `authenticateUser` middleware: either `next()` is called
(control passes to the protected handler) or a response is sent and the
chain stops. -/
inductive AuthDecision where
  | proceed : AuthDecision
  | reject : SecretsResponse → AuthDecision
deriving Repr, DecidableEq

/-- `authenticateUser` (part_001 lines 333-356), as a function of the store
lookup's result (`.error` = the awaited query rejected): a found user calls
`next()`; no user sends 401 `'Not authorized'`; a store failure is caught
and also sends status 401. -/
def authenticateUser (lookup : Except Unit (Option User)) : AuthDecision :=
  match lookup with
  | .ok (some _) => .proceed
  | .ok none => .reject ⟨401, false, .notAuthorized⟩
  | .error _ => .reject ⟨401, false, .caughtError⟩

/-- The express middleware chain `app.get('/secrets', authenticateUser);`
`app.get('/secrets', handler)`: the handler runs only when the gate called
`next()`. Parameterised over the handler to state handler-independence of
the rejection path. -/
def protectedRoute (lookup : Except Unit (Option User))
    (handler : SecretsResponse) : SecretsResponse :=
  match authenticateUser lookup with
  | .proceed => handler
  | .reject r => r

/-- The GET /secrets handler body (part_001 lines 361-367): re-resolve the
user from the header, then `Secret.find({ user: user._id })` and respond
200 with the list. Reached only after the gate passed, so the user lookup
succeeds. -/
def getSecretsHandler (db : DB) (header : Option String) : SecretsResponse :=
  match findUserByToken db header with
  | some user =>
      ⟨200, true, .secretList (db.secrets.filter (fun s => s.user == user.id))⟩
  | none => ⟨500, false, .caughtError⟩

/-- The full GET /secrets route: gate (on the store's token lookup), then
handler. -/
def getSecretsRoute (db : DB) (header : Option String) : SecretsResponse :=
  protectedRoute (.ok (findUserByToken db header)) (getSecretsHandler db header)

/-- The POST /secrets handler body (part_001 lines 374-380): re-resolve the
user, save a new `Secret { message, user: user._id }` — and send no
response at all (the handler ends without `res....`). Returns the new store
and the response sent (`none` = nothing sent). `newId`/`now` are the id and
default `createdAt` the store assigns. -/
def postSecretsHandler (db : DB) (header : Option String)
    (message : Option String) (newId : String) (now : Nat) :
    DB × Option SecretsResponse :=
  match findUserByToken db header with
  | some user =>
      ({ db with
          secrets := db.secrets ++ [⟨newId, message, now, user.id⟩] }, none)
  | none => (db, none)

/-- The full POST /secrets route: gate, then handler; a rejected request
leaves the store unchanged and carries the gate's response. -/
def postSecretsRoute (db : DB) (header : Option String)
    (message : Option String) (newId : String) (now : Nat) :
    DB × Option SecretsResponse :=
  match authenticateUser (.ok (findUserByToken db header)) with
  | .proceed => postSecretsHandler db header message newId now
  | .reject r => (db, some r)

/-! ### GET /wines with filters (part_001 lines 128-152)

`const varietyRegex = new RegExp(variety)` and
`const priceQuery = { $gt: price ? price : 0 }`, then
`Wine.find({ variety: varietyRegex, price: priceQuery })`. -/

/-- Modelled from JS `RegExp` semantics restricted to patterns made of
literal characters and the `.` wildcard (the repository never constructs
other metacharacters itself; patterns outside this fragment are outside the
model): does the pattern match starting at the head of `w`? `.` matches any
character except a line terminator. -/
def regexMatchesAt : List Char → List Char → Bool
  | [], _ => true
  | _ :: _, [] => false
  | c :: p, d :: w =>
      ((c == '.' && d != '\n') || c == d) && regexMatchesAt p w

/-- Modelled from JS `RegExp` semantics (same fragment):
`new RegExp(pattern).test(text)` — the pattern matches starting at some
position of `text`. An empty pattern matches every string. -/
def regexTest (pattern text : String) : Bool :=
  text.data.tails.any (regexMatchesAt pattern.data)

/-- The variety part of the find filter: `new RegExp(variety)` where
`variety` is `req.query.variety`. An absent query parameter gives
`new RegExp(undefined)` = the empty pattern, which matches every string. -/
def varietyMatches (pattern : Option String) (text : String) : Bool :=
  match pattern with
  | none => true
  | some p => regexTest p text

/-- The price part of the find filter, `{ price: { $gt: t } }` under Mongo
semantics: matches only documents whose `price` field is present and
strictly greater than `t`; a document with no price value never matches a
`$gt` comparison. -/
def priceMatches (t : Int) (price : Option Int) : Bool :=
  match price with
  | some p => t < p
  | none => false

/-- Body of the GET /wines response. -/
inductive WinesBody where
  | wineList : List Wine → WinesBody
  | emptyBody : WinesBody
deriving Repr, DecidableEq

/-- Response shape of GET /wines: `{ success, body }`. -/
structure WinesResponse where
  status : Nat
  success : Bool
  body : WinesBody
deriving Repr, DecidableEq

/-- The `$gt` threshold the route builds: `price ? price : 0` — the `price`
query parameter when given, `0` otherwise. -/
def priceThreshold (price : Option Int) : Int :=
  match price with
  | some t => t
  | none => 0

/-- GET /wines (part_001 lines 128-152): filter the wine collection by the
variety regex AND the price `$gt` threshold. Responds 200 with the filtered
list. -/
def getWines (db : DB) (variety : Option String) (price : Option Int) :
    WinesResponse :=
  ⟨200, true, .wineList (db.wines.filter
    (fun w => varietyMatches variety w.variety &&
      priceMatches (priceThreshold price) w.price))⟩

/-- The list a GET /wines response carries. -/
def getWinesList (db : DB) (variety : Option String) (price : Option Int) :
    List Wine :=
  match (getWines db variety price).body with
  | .wineList l => l
  | .emptyBody => []

/-- Case-sensitive substring containment, written from the spec's words
("contains that substring") to compare against the code's regex filter:
`needle` occurs contiguously in `hay`. -/
def containsSubstr (needle hay : String) : Bool :=
  hay.data.tails.any (fun t => needle.data.isPrefixOf t)

/-- The JS regex metacharacters; a pattern avoiding all of them is matched
purely literally by `RegExp`. -/
def regexMetachars : List Char :=
  ['.', '*', '+', '?', '^', '$', '(', ')', '[', ']', '\x7b', '\x7d', '|', '\\']

/-! ### PATCH /wines/:id (part_001 lines 157-181; identical in
`src/server.js` lines 115-139) -/

/-- Body of the single-wine routes' responses. -/
inductive WineItemBody where
  | item : Option Wine → WineItemBody
  | caughtError : WineItemBody
deriving Repr, DecidableEq

/-- Response shape of the single-wine routes:
`{ success, response, message }`. -/
structure WineItemResponse where
  status : Nat
  success : Bool
  response : WineItemBody
deriving Repr, DecidableEq

/-- `Wine.findByIdAndUpdate(id, { description: newDescription },`
`{ new: true })`: set the `description` field of the document whose `_id`
is `id` (ids are unique, so at most one document changes) and return the
post-update document, or `null` when the id resolves to nothing. -/
def findByIdAndUpdate (wines : List Wine) (id newDescription : String) :
    List Wine × Option Wine :=
  let updated := wines.map
    (fun w => if w.id == id then { w with description := newDescription } else w)
  (updated, updated.find? (fun w => w.id == id))

/-- PATCH /wines/:id (part_001 lines 157-181): update only `description`
via `findByIdAndUpdate` with `{ new: true }` and respond 200 carrying the
post-update document. Returns the new store and the response. -/
def patchWine (db : DB) (id newDescription : String) :
    DB × WineItemResponse :=
  let r := findByIdAndUpdate db.wines id newDescription
  ({ db with wines := r.1 }, ⟨200, true, .item r.2⟩)

/-! ### POST /wines and the schema-level `createdAt` default

Both wine schemas declare `createdAt: { type: Date, default: new Date() }`
(`src/server.js` lines 49-52, part_001 lines 51-54): the `new Date()` is
evaluated ONCE, when the schema definition runs at module load, and that
single value is the default for every document created afterwards. The
handler never passes `createdAt`, so every wine gets the default. -/

/-- Build the document `new Wine({ name, description, rating, variety })`
saves (part_001 lines 95-117): the body fields plus the store-assigned id
and the schema default for `createdAt`, which is `schemaLoadDate` — the
timestamp at which the schema was defined — NOT `now`, the time of this
request. `now` is unused precisely because the code's default was computed
once at load. -/
def mkWineDoc (schemaLoadDate _now : Nat) (newId name description : String)
    (price : Option Int) (variety : String) : Wine :=
  { id := newId, name := name, description := description, price := price,
    createdAt := schemaLoadDate, variety := variety, country := none }

/-- POST /wines (part_001 lines 95-117) on the happy path: persist the new
document (appended to the collection) and respond 201 with it. Validation
failures take the catch branch (status 418) and are outside the claims
settled here. -/
def postWines (db : DB) (schemaLoadDate now : Nat)
    (newId name description : String) (price : Option Int)
    (variety : String) : DB × WineItemResponse :=
  let doc := mkWineDoc schemaLoadDate now newId name description price variety
  ({ db with wines := db.wines ++ [doc] }, ⟨201, true, .item (some doc)⟩)

/-! ### POST /register (part_001 lines 252-279) -/

/-- Body of the register/login responses. -/
inductive AccountBody where
  | userInfo (username id accessToken : String) : AccountBody
  | message (s : String) : AccountBody
  | caughtError : AccountBody
deriving Repr, DecidableEq

/-- Response shape of POST /register and POST /login. -/
structure AccountResponse where
  status : Nat
  success : Bool
  response : AccountBody
deriving Repr, DecidableEq

/-- The `User` schema validation run by `.save()` (part_001 lines 229-246)
on the document the register route builds: `username` required with length
in [2,20] and unique, `password` (the STORED value — the route stores the
bcrypt hash, so this minlength inspects the hash, not the plaintext)
required with minlength 5. `accessToken` is defaulted, never validated. -/
def userSchemaValid (db : DB) (username storedPassword : String) : Bool :=
  2 ≤ username.length && username.length ≤ 20 &&
    db.users.all (fun u => u.username != username) &&
    5 ≤ storedPassword.length

/-- POST /register (part_001 lines 252-279): hash the plaintext with a
fresh salt, save `new User({ username, password: hash })` (the schema
fills in `accessToken`), respond 201 with `{ username, id, accessToken }`
— the stored password is the hash, and it is not echoed back. A failed
save is caught and answered 400. `salt`, `newId`, `token` are the fresh
salt and the store-assigned id and default token. Returns the new store
and the response. -/
def register (db : DB) (username password : String)
    (salt newId token : String) : DB × AccountResponse :=
  let hashed := bcryptHashSync password salt
  if userSchemaValid db username hashed then
    ({ db with users := db.users ++ [⟨newId, username, hashed, token⟩] },
      ⟨201, true, .userInfo username newId token⟩)
  else
    (db, ⟨400, false, .caughtError⟩)

/-! ### POST /login (part_001 lines 283-313) -/

/-- POST /login: `User.findOne({ username })`; if a user is found AND
`bcrypt.compareSync(password, user.password)` is true, respond 200 with
`{ username, id, accessToken }` (the stored token — no new token is
minted); otherwise respond 404 `'User not found'`. `compareSync` throws
when `password` is absent from the body (or not a string, both modelled as
`none`), and the catch branch answers 500. -/
def login (db : DB) (username : String) (password : Option String) :
    AccountResponse :=
  match db.users.find? (fun u => u.username == username) with
  | some user =>
      match bcryptCompareSync password user.password with
      | .ok true => ⟨200, true, .userInfo user.username user.id user.accessToken⟩
      | .ok false => ⟨404, false, .message "User not found"⟩
      | .error _ => ⟨500, false, .caughtError⟩
  | none => ⟨404, false, .message "User not found"⟩

/-! ### Accessors and concrete fixtures used by witnesses -/

/-- The list a GET /secrets response carries (empty for non-list bodies). -/
def getSecretsList (db : DB) (header : Option String) : List Secret :=
  match (getSecretsRoute db header).response with
  | .secretList l => l
  | _ => []

/-- A fixed 22-character salt standing for `bcrypt.genSaltSync()` output in
concrete computations. -/
def salt22 : String := "abcdefghijklmnopqrstuv"

/-- Fixture: a registered user with a hashed password. -/
def userA : User :=
  ⟨"idA", "anna", bcryptHashSync "secret1" salt22, "tokA"⟩

/-- Fixture: a second registered user. -/
def userB : User :=
  ⟨"idB", "bob", bcryptHashSync "hunter22" salt22, "tokB"⟩

/-- Fixture: a secret owned by `userA` and one owned by `userB`. -/
def secretA : Secret := ⟨"s1", some "alpha", 10, "idA"⟩

/-- Fixture: the secret owned by `userB`. -/
def secretB : Secret := ⟨"s2", some "beta", 11, "idB"⟩

/-- Fixture store with two users and one secret each. -/
def dbAB : DB := ⟨[], [userA, userB], [secretA, secretB]⟩

/-- Fixture: a wine with a present price and a one-letter variety. -/
def winePriced : Wine := ⟨"w1", "Toro Loco", "a dry red", some 10, 50, "x", none⟩

/-- Fixture: a wine whose `price` field is absent. -/
def wineNoPrice : Wine := ⟨"w2", "Gato Negro", "a soft red", none, 50, "red", none⟩

/-- Fixture: a wine with a present price and variety containing "red". -/
def wineRed : Wine := ⟨"w3", "Faustino", "a rich red", some 30, 50, "red blend", none⟩

/-! ## Helper lemmas -/

/-- An absent `Authorization` header matches no stored user: every stored
`accessToken` is a present string. -/
theorem findUserByToken_none (db : DB) : findUserByToken db none = none := by
  simp [findUserByToken, List.find?_eq_none]

/-- The Mongo `$gt` predicate holds exactly of a present price strictly
above the threshold. -/
theorem priceMatches_iff (t : Int) (price : Option Int) :
    priceMatches t price = true ↔ ∃ p, price = some p ∧ t < p := by
  cases price <;> simp [priceMatches]

/-- On a pattern free of regex metacharacters, matching at the head of a
word is exactly being a prefix of it. -/
theorem regexMatchesAt_no_metachar (p : List Char)
    (hp : ∀ c ∈ p, c ∉ regexMetachars) (w : List Char) :
    regexMatchesAt p w = p.isPrefixOf w := by
  induction p generalizing w with
  | nil => cases w <;> rfl
  | cons c p ih =>
    cases w with
    | nil => rfl
    | cons d w =>
      have hc : c ∉ regexMetachars := hp c (by simp)
      have hcdot : (c == '.') = false := by
        simp only [regexMetachars, List.mem_cons, not_or] at hc
        simp [hc.1]
      simp [regexMatchesAt, List.isPrefixOf, hcdot,
        ih (fun x hx => hp x (List.mem_cons_of_mem c hx)) w]

/-- On a pattern free of regex metacharacters, `RegExp(pattern).test` is
exactly case-sensitive substring containment. -/
theorem regexTest_no_metachar (s v : String)
    (hs : ∀ c ∈ s.data, c ∉ regexMetachars) :
    regexTest s v = containsSubstr s v := by
  have hfun : regexMatchesAt s.data = fun t => s.data.isPrefixOf t :=
    funext fun t => regexMatchesAt_no_metachar s.data hs t
  simp [regexTest, containsSubstr, hfun]

/-! ## Claim theorems -/

/-- C1: any GET /secrets or POST /secrets request whose `Authorization`
header matches no stored user's `accessToken` (a missing header included,
since it equals no stored token) is answered 401 by the gate and the
protected handler is never invoked (the outcome is the same for every
handler); a store failure during the token lookup is likewise answered
with status 401, not a distinct error class. -/
theorem C1_unauthorized_gate (db : DB) (header : Option String)
    (m : Option String) (nid : String) (now : Nat)
    (h : findUserByToken db header = none) :
    getSecretsRoute db header = ⟨401, false, .notAuthorized⟩ ∧
    postSecretsRoute db header m nid now =
      (db, some ⟨401, false, .notAuthorized⟩) ∧
    (∀ handler : SecretsResponse,
      protectedRoute (.ok (findUserByToken db header)) handler =
        ⟨401, false, .notAuthorized⟩) ∧
    (∀ handler : SecretsResponse,
      protectedRoute (.error ()) handler = ⟨401, false, .caughtError⟩ ∧
        (protectedRoute (.error ()) handler).status = 401) ∧
    findUserByToken db none = none := by
  refine ⟨?_, ?_, ?_, ?_, findUserByToken_none db⟩
  · simp [getSecretsRoute, protectedRoute, authenticateUser, h]
  · simp [postSecretsRoute, authenticateUser, h]
  · intro handler
    simp [protectedRoute, authenticateUser, h]
  · intro handler
    simp [protectedRoute, authenticateUser]

/-- C1 witness: a concrete store and an unrecognized header. -/
theorem C1_unauthorized_gate_witness :
    getSecretsRoute dbAB (some "badtoken") = ⟨401, false, .notAuthorized⟩ ∧
    postSecretsRoute dbAB (some "badtoken") (some "hi") "s9" 60 =
      (dbAB, some ⟨401, false, .notAuthorized⟩) ∧
    (∀ handler : SecretsResponse,
      protectedRoute (.ok (findUserByToken dbAB (some "badtoken"))) handler =
        ⟨401, false, .notAuthorized⟩) ∧
    (∀ handler : SecretsResponse,
      protectedRoute (.error ()) handler = ⟨401, false, .caughtError⟩ ∧
        (protectedRoute (.error ()) handler).status = 401) ∧
    findUserByToken dbAB none = none :=
  C1_unauthorized_gate dbAB (some "badtoken") (some "hi") "s9" 60 (by decide)

/-- C2: an authenticated GET /secrets returns status 200 and exactly the
secrets whose `user` field is the resolved caller's id; and after an
authenticated POST /secrets with message `m`, a GET /secrets with the same
credential includes a secret with message `m` owned by the caller, still
with no other user's secrets. -/
theorem C2_secrets_scoped_to_caller (db : DB) (header : Option String)
    (u : User) (h : findUserByToken db header = some u) :
    ((getSecretsRoute db header).status = 200 ∧
      ∀ s, s ∈ getSecretsList db header ↔ s ∈ db.secrets ∧ s.user = u.id) ∧
    ∀ m nid now,
      (∃ s ∈ getSecretsList (postSecretsRoute db header (some m) nid now).1 header,
          s.message = some m ∧ s.user = u.id) ∧
      ∀ s ∈ getSecretsList (postSecretsRoute db header (some m) nid now).1 header,
          s.user = u.id := by
  have hroute : getSecretsRoute db header =
      ⟨200, true, .secretList (db.secrets.filter (fun s => s.user == u.id))⟩ := by
    simp [getSecretsRoute, protectedRoute, authenticateUser, getSecretsHandler, h]
  have hlist : getSecretsList db header =
      db.secrets.filter (fun s => s.user == u.id) := by
    simp [getSecretsList, hroute]
  refine ⟨⟨by simp [hroute], ?_⟩, ?_⟩
  · intro s
    simp [hlist, List.mem_filter]
  · intro m nid now
    have hpost : (postSecretsRoute db header (some m) nid now).1 =
        { db with secrets := db.secrets ++ [⟨nid, some m, now, u.id⟩] } := by
      simp [postSecretsRoute, authenticateUser, postSecretsHandler, h]
    have hfind : findUserByToken (postSecretsRoute db header (some m) nid now).1
        header = some u := by
      rw [hpost]; exact h
    have hroute2 : getSecretsRoute (postSecretsRoute db header (some m) nid now).1
        header = ⟨200, true, .secretList
          (((postSecretsRoute db header (some m) nid now).1).secrets.filter
            (fun s => s.user == u.id))⟩ := by
      simp [getSecretsRoute, protectedRoute, authenticateUser, getSecretsHandler,
        hfind]
    have hlist2 : getSecretsList (postSecretsRoute db header (some m) nid now).1
        header = (db.secrets ++ [(⟨nid, some m, now, u.id⟩ : Secret)]).filter
          (fun s => s.user == u.id) := by
      simp only [getSecretsList, hroute2]
      rw [hpost]
    constructor
    · refine ⟨(⟨nid, some m, now, u.id⟩ : Secret), ?_, rfl, rfl⟩
      rw [hlist2, List.filter_append]
      exact List.mem_append_right _ (by simp)
    · intro s hs
      rw [hlist2] at hs
      exact beq_iff_eq.mp (List.mem_filter.mp hs).2

/-- C2 witness: user A's credential sees exactly user A's secret. -/
theorem C2_secrets_scoped_to_caller_witness :
    ((getSecretsRoute dbAB (some "tokA")).status = 200 ∧
      ∀ s, s ∈ getSecretsList dbAB (some "tokA") ↔
        s ∈ dbAB.secrets ∧ s.user = userA.id) ∧
    ∀ m nid now,
      (∃ s ∈ getSecretsList (postSecretsRoute dbAB (some "tokA") (some m) nid now).1
          (some "tokA"), s.message = some m ∧ s.user = userA.id) ∧
      ∀ s ∈ getSecretsList (postSecretsRoute dbAB (some "tokA") (some m) nid now).1
          (some "tokA"), s.user = userA.id :=
  C2_secrets_scoped_to_caller dbAB (some "tokA") userA (by decide)

/-- C3: the claim says a plaintext password shorter than 5 makes
registration fail, but the schema's `minlength: 5` validates the STORED
password, which the register route sets to the 60-character bcrypt hash —
so registering with the 2-character plaintext "ab" succeeds (201) and
persists the user; only the hash, not the plaintext, is stored. -/
theorem C3_short_password_accepted :
    "ab".length < 5 ∧
    (register ⟨[], [], []⟩ "anna" "ab" salt22 "id1" "tok1").2 =
      ⟨201, true, .userInfo "anna" "id1" "tok1"⟩ ∧
    (register ⟨[], [], []⟩ "anna" "ab" salt22 "id1" "tok1").1.users =
      [⟨"id1", "anna", bcryptHashSync "ab" salt22, "tok1"⟩] ∧
    bcryptHashSync "ab" salt22 ≠ "ab" := by
  refine ⟨by decide, by decide, by decide, by decide⟩

/-- C4 counterexample: the claim says that with the price parameter
omitted every wine, including those with no price value, is eligible —
but the route always sends `price: { $gt: 0 }`, which a document lacking
a price never satisfies, so the stored no-price wine is excluded. -/
theorem C4_counterexample_no_price_wine :
    wineNoPrice ∈ (⟨[wineNoPrice], [], []⟩ : DB).wines ∧
    getWinesList ⟨[wineNoPrice], [], []⟩ none none = [] := by
  exact ⟨by decide, by decide⟩

/-- C4 amended: with a numeric threshold `T` (and no variety parameter)
the result is exactly the wines having a present price strictly greater
than `T`; omitting the parameter is the same query as `T = 0` — which
still requires a present, positive price, so wines with no price value
are excluded rather than eligible. -/
theorem C4_price_filter_amended (db : DB) (T : Int) :
    (∀ w, w ∈ getWinesList db none (some T) ↔
        w ∈ db.wines ∧ ∃ p, w.price = some p ∧ T < p) ∧
    getWines db none none = getWines db none (some 0) ∧
    (getWines db none (some T)).status = 200 := by
  refine ⟨?_, rfl, rfl⟩
  intro w
  simp only [getWinesList, getWines, List.mem_filter, varietyMatches,
    Bool.true_and, priceThreshold]
  exact and_congr_right fun _ => priceMatches_iff T w.price

/-- C5 counterexample: the claim says the variety filter is exact
case-sensitive substring containment of the parameter, but (a) the
parameter is compiled as a regex, so the pattern "." admits the variety
"x" which does not contain "." as a substring, and (b) the always-present
`price: { $gt: ... }` conjunct excludes a wine whose variety does contain
the pattern but whose price field is absent. -/
theorem C5_counterexample_regex_and_price :
    (winePriced ∈ getWinesList ⟨[winePriced], [], []⟩ (some ".") none ∧
      containsSubstr "." winePriced.variety = false) ∧
    (wineNoPrice ∉ getWinesList ⟨[wineNoPrice], [], []⟩ (some "red") none ∧
      containsSubstr "red" wineNoPrice.variety = true) := by
  exact ⟨⟨by decide, by decide⟩, ⟨by decide, by decide⟩⟩

/-- C5 amended: for a variety parameter free of regex metacharacters
(matched literally by `RegExp`), the result is exactly the wines whose
variety contains the parameter as a case-sensitive substring AND whose
price is present and strictly greater than the threshold (the given one,
or 0 when the price parameter is absent) — the two filters are conjoined. -/
theorem C5_variety_filter_amended (db : DB) (s : String) (price : Option Int)
    (hs : ∀ c ∈ s.data, c ∉ regexMetachars) :
    ∀ w, w ∈ getWinesList db (some s) price ↔
      w ∈ db.wines ∧ containsSubstr s w.variety = true ∧
        ∃ p, w.price = some p ∧ priceThreshold price < p := by
  intro w
  simp only [getWinesList, getWines, List.mem_filter, varietyMatches,
    Bool.and_eq_true, regexTest_no_metachar s w.variety hs, and_assoc]
  exact and_congr_right fun _ => and_congr_right fun _ =>
    priceMatches_iff (priceThreshold price) w.price

/-- C5 witness: the literal pattern "red" on a concrete store. -/
theorem C5_variety_filter_amended_witness :
    wineRed ∈ getWinesList ⟨[wineRed, winePriced], [], []⟩ (some "red") none ↔
      wineRed ∈ (⟨[wineRed, winePriced], [], []⟩ : DB).wines ∧
        containsSubstr "red" wineRed.variety = true ∧
        ∃ p, wineRed.price = some p ∧ priceThreshold none < p :=
  C5_variety_filter_amended ⟨[wineRed, winePriced], [], []⟩ "red" none
    (by decide) wineRed

/-- C6: a POST /login with an existing username but a password failing the
bcrypt comparison yields exactly the same response — status 404, body
`'User not found'` — as one whose username matches no stored user, so the
two failure causes are indistinguishable to the client. -/
theorem C6_login_failures_indistinguishable (db : DB) (u1 u2 p1 : String)
    (p2 : Option String) (user : User)
    (h1 : db.users.find? (fun u => u.username == u1) = some user)
    (h2 : bcryptCompareSync (some p1) user.password = .ok false)
    (h3 : db.users.find? (fun u => u.username == u2) = none) :
    login db u1 (some p1) = ⟨404, false, .message "User not found"⟩ ∧
    login db u2 p2 = ⟨404, false, .message "User not found"⟩ ∧
    login db u1 (some p1) = login db u2 p2 := by
  have e1 : login db u1 (some p1) = ⟨404, false, .message "User not found"⟩ := by
    simp [login, h1, h2]
  have e2 : login db u2 p2 = ⟨404, false, .message "User not found"⟩ := by
    simp [login, h3]
  exact ⟨e1, e2, e1.trans e2.symm⟩

/-- C6 witness: wrong password for the stored user "anna" versus the
unknown username "carol". -/
theorem C6_login_failures_indistinguishable_witness :
    login dbAB "anna" (some "wrong") = ⟨404, false, .message "User not found"⟩ ∧
    login dbAB "carol" (some "whatever") =
      ⟨404, false, .message "User not found"⟩ ∧
    login dbAB "anna" (some "wrong") = login dbAB "carol" (some "whatever") :=
  C6_login_failures_indistinguishable dbAB "anna" "carol" "wrong"
    (some "whatever") userA (by decide) (by rfl) (by decide)

/-- C7: a PATCH /wines/:id with a resolvable id and a `newDescription`
value responds 200 carrying the post-update record, which agrees with the
prior record on every field except `description`; every wine with a
different id is untouched in both directions, and the other collections
are untouched. (`huniq` is the store invariant that `_id`s are unique.) -/
theorem C7_patch_changes_only_description (db : DB) (id d : String) (w : Wine)
    (huniq : (db.wines.map Wine.id).Nodup)
    (hfind : db.wines.find? (fun x => x.id == id) = some w) :
    ((patchWine db id d).2 =
        ⟨200, true, .item (some { w with description := d })⟩ ∧
      ({ w with description := d } : Wine).name = w.name ∧
      ({ w with description := d } : Wine).price = w.price ∧
      ({ w with description := d } : Wine).variety = w.variety ∧
      ({ w with description := d } : Wine).country = w.country ∧
      ({ w with description := d } : Wine).createdAt = w.createdAt ∧
      ({ w with description := d } : Wine).id = w.id ∧
      ({ w with description := d } : Wine).description = d) ∧
    (patchWine db id d).1.wines.find? (fun x => x.id == id) =
      some { w with description := d } ∧
    (∀ x ∈ db.wines, x.id ≠ id → x ∈ (patchWine db id d).1.wines) ∧
    (∀ x ∈ (patchWine db id d).1.wines, x.id ≠ id → x ∈ db.wines) ∧
    (patchWine db id d).1.users = db.users ∧
    (patchWine db id d).1.secrets = db.secrets := by
  have hid : ∀ x : Wine,
      ((if x.id == id then ({ x with description := d } : Wine) else x).id == id) =
        (x.id == id) := by
    intro x
    by_cases hx : (x.id == id) = true
    · simp [hx]
    · simp [hx]
  have hupd : (patchWine db id d).1.wines.find? (fun x => x.id == id) =
      some { w with description := d } := by
    show ((db.wines.map fun x =>
        if x.id == id then { x with description := d } else x).find?
      (fun x => x.id == id)) = some { w with description := d }
    rw [List.find?_map]
    have hcomp : ((fun x : Wine => x.id == id) ∘ fun x : Wine =>
        if x.id == id then { x with description := d } else x) =
        fun x : Wine => x.id == id := funext fun x => hid x
    rw [hcomp, hfind]
    have hw' := List.find?_some hfind
    have hw : (w.id == id) = true := hw'
    simp [Option.map, hw]
  refine ⟨⟨?_, rfl, rfl, rfl, rfl, rfl, rfl, rfl⟩, hupd, ?_, ?_, rfl, rfl⟩
  · show (⟨200, true, .item ((db.wines.map fun x =>
        if x.id == id then { x with description := d } else x).find?
      (fun x => x.id == id))⟩ : WineItemResponse) = _
    rw [show ((db.wines.map fun x =>
        if x.id == id then { x with description := d } else x).find?
      (fun x => x.id == id)) = some { w with description := d } from hupd]
  · intro x hx hxid
    have hfx : (if x.id == id then ({ x with description := d } : Wine) else x)
        ∈ (patchWine db id d).1.wines := List.mem_map_of_mem _ hx
    simpa [beq_eq_false_iff_ne.mpr hxid] using hfx
  · intro x hx hxid
    obtain ⟨y, hy, hfy⟩ := List.mem_map.mp hx
    by_cases hyid : (y.id == id) = true
    · exfalso
      apply hxid
      rw [← hfy]
      simp [hyid]
      exact beq_iff_eq.mp hyid
    · rw [← hfy]
      simpa [hyid] using hy

/-- C7 witness: patching the wine "w1" in a concrete two-wine store. -/
theorem C7_patch_changes_only_description_witness :
    ((patchWine ⟨[winePriced, wineRed], [], []⟩ "w1" "a new note").2 =
        ⟨200, true, .item (some { winePriced with description := "a new note" })⟩ ∧
      ({ winePriced with description := "a new note" } : Wine).name =
        winePriced.name ∧
      ({ winePriced with description := "a new note" } : Wine).price =
        winePriced.price ∧
      ({ winePriced with description := "a new note" } : Wine).variety =
        winePriced.variety ∧
      ({ winePriced with description := "a new note" } : Wine).country =
        winePriced.country ∧
      ({ winePriced with description := "a new note" } : Wine).createdAt =
        winePriced.createdAt ∧
      ({ winePriced with description := "a new note" } : Wine).id =
        winePriced.id ∧
      ({ winePriced with description := "a new note" } : Wine).description =
        "a new note") ∧
    (patchWine ⟨[winePriced, wineRed], [], []⟩ "w1" "a new note").1.wines.find?
        (fun x => x.id == "w1") =
      some { winePriced with description := "a new note" } ∧
    (∀ x ∈ (⟨[winePriced, wineRed], [], []⟩ : DB).wines, x.id ≠ "w1" →
      x ∈ (patchWine ⟨[winePriced, wineRed], [], []⟩ "w1" "a new note").1.wines) ∧
    (∀ x ∈ (patchWine ⟨[winePriced, wineRed], [], []⟩ "w1" "a new note").1.wines,
      x.id ≠ "w1" → x ∈ (⟨[winePriced, wineRed], [], []⟩ : DB).wines) ∧
    (patchWine ⟨[winePriced, wineRed], [], []⟩ "w1" "a new note").1.users =
      (⟨[winePriced, wineRed], [], []⟩ : DB).users ∧
    (patchWine ⟨[winePriced, wineRed], [], []⟩ "w1" "a new note").1.secrets =
      (⟨[winePriced, wineRed], [], []⟩ : DB).secrets :=
  C7_patch_changes_only_description ⟨[winePriced, wineRed], [], []⟩ "w1"
    "a new note" winePriced (by decide) (by decide)

/-- C8: the claim says a wine's `createdAt` defaults to the time of its
creation, distinct creations receiving distinct timestamps — but the
schema default `new Date()` was evaluated once at schema definition, so
wines created at the distinct times 100 and 200 (schema loaded at 50)
both store 50: neither equals its creation time and the two are equal. -/
theorem C8_createdAt_is_schema_load_time :
    (100 : Nat) ≠ 200 ∧
    ((postWines ⟨[], [], []⟩ 50 100 "w1" "Rioja" "a dry red" (some 10)
        "red").1.wines.map Wine.createdAt = [50]) ∧
    ((postWines (postWines ⟨[], [], []⟩ 50 100 "w1" "Rioja" "a dry red"
          (some 10) "red").1 50 200 "w2" "Barolo" "a bold red" (some 20)
        "red").1.wines.map Wine.createdAt = [50, 50]) := by
  exact ⟨by decide, by decide, by decide⟩

/-- C9 counterexample: on a concrete authenticated POST /secrets the
handler sends no response at all — not the status-201-with-created-record
response the claim asserts. -/
theorem C9_counterexample_no_response :
    findUserByToken dbAB (some "tokA") = some userA ∧
    (postSecretsRoute dbAB (some "tokA") (some "hi") "s9" 60).2 = none := by
  exact ⟨by decide, by decide⟩

/-- C9 amended: an authenticated POST /secrets with message `m` persists a
new Secret with message `m` owned by the resolved caller (appended to the
collection), but the handler ends without sending any response. -/
theorem C9_post_secret_amended (db : DB) (header : Option String) (u : User)
    (m : Option String) (nid : String) (now : Nat)
    (h : findUserByToken db header = some u) :
    postSecretsRoute db header m nid now =
      ({ db with secrets := db.secrets ++ [⟨nid, m, now, u.id⟩] }, none) := by
  simp [postSecretsRoute, authenticateUser, postSecretsHandler, h]

/-- C9 witness: user A posts a secret on the concrete store. -/
theorem C9_post_secret_amended_witness :
    postSecretsRoute dbAB (some "tokA") (some "hi") "s9" 60 =
      ({ dbAB with
          secrets := dbAB.secrets ++ [⟨"s9", some "hi", 60, userA.id⟩] }, none) :=
  C9_post_secret_amended dbAB (some "tokA") userA (some "hi") "s9" 60 (by decide)

/-- C10: a POST /login whose username resolves to a stored user but whose
body carries no password value makes `bcrypt.compareSync` throw, so the
catch branch answers status 500 — observably different from the 404
`'User not found'` a wrong password produces. -/
theorem C10_missing_password_is_500 (db : DB) (username : String) (user : User)
    (h : db.users.find? (fun u => u.username == username) = some user) :
    login db username none = ⟨500, false, .caughtError⟩ ∧
    login db username none ≠ ⟨404, false, .message "User not found"⟩ := by
  have e : login db username none = ⟨500, false, .caughtError⟩ := by
    simp [login, h, bcryptCompareSync]
  refine ⟨e, ?_⟩
  rw [e]
  intro hcontra
  exact absurd (congrArg AccountResponse.status hcontra) (by decide)

/-- C10 witness: the stored user "anna" with no password in the body. -/
theorem C10_missing_password_is_500_witness :
    login dbAB "anna" none = ⟨500, false, .caughtError⟩ ∧
    login dbAB "anna" none ≠ ⟨404, false, .message "User not found"⟩ :=
  C10_missing_password_is_500 dbAB "anna" userA (by decide)

end Webshop
